import Mathlib

/-!
# Verification of the keyword classification engine

Shallow embedding of the marketing-statement classifier: three Streamlit
pages share a dictionary-driven substring classifier.  We model the pure
core of each page:

* `ClaudePage` embeds `src/pages/1_claude_dictionary.py`
  (`classify_statement`, `process_data`, the results-tab statistics and
  the dictionary import path);
* `CodexPage` embeds `src/pages/codex_project_dictionary.py`
  (`_detect_statement_column`);
* `AppPage` embeds `src/streamlit_app.py` (`classify_statement` and the
  column guard in `main`).

Python strings become Lean `String`; Python `dict` (insertion ordered)
becomes an association list; a pandas cell becomes the inductive `Cell`
(`na` standing for NaN / a missing value); Python division, which fails
on a zero divisor instead of producing a number, returns an `Option`.
-/

/-- Python `needle` matching at the head of `hay` (both as char lists). -/
def leadMatch : List Char → List Char → Bool
  | [], _ => true
  | _ :: _, [] => false
  | a :: as, b :: bs => a == b && leadMatch as bs

/-- Python substring test over char lists. -/
def hasSub (needle : List Char) : List Char → Bool
  | [] => needle.isEmpty
  | b :: bs => leadMatch needle (b :: bs) || hasSub needle bs

/-- Python `needle in hay` for strings: contiguous substring containment. -/
def strIn (needle hay : String) : Bool :=
  hasSub needle.data hay.data

/-- Python `str.lower` (ASCII range, as in the statements at hand). -/
def lowerStr (s : String) : String :=
  ⟨s.data.map Char.toLower⟩

example : strIn "vip" "a vip deal" = true := by decide
example : strIn "vip" "pavilion tour" = false := by decide
example : lowerStr "Hurry!" = "hurry!" := by decide

/-- The per-statement, per-category outcome of classification: the dict
value built at lines 47-51 of the claude page. -/
structure MatchResult where
  present : Bool
  count : Nat
  matches_ : List String
deriving Repr, DecidableEq

/-- One pandas cell.  `na` is NaN / a missing value; `results` holds a
raw per-category result dict (the value stored in the frame by
`df.apply` on the `classification` column); `labels` holds the list of
category names stored by the app page. -/
inductive Cell where
  | na
  | str (s : String)
  | boolC (b : Bool)
  | natC (n : Nat)
  | results (rs : List (String × MatchResult))
  | labels (ls : List String)
deriving Repr, DecidableEq

/-- Python `pd.isna` on a cell. -/
def cellIsNa : Cell → Bool
  | .na => true
  | _ => false

/-- Python truthiness (`not text` is the negation) on a cell. -/
def cellTruthy : Cell → Bool
  | .na => true
  | .str s => !s.data.isEmpty
  | .boolC b => b
  | .natC n => n != 0
  | .results rs => !rs.isEmpty
  | .labels ls => !ls.isEmpty

/-- Python `str(x)` on a cell, as applied by the code at hand. -/
def cellPyStr : Cell → String
  | .na => "nan"
  | .str s => s
  | .boolC b => if b then "True" else "False"
  | .natC n => toString n
  | .results _ => "dict"
  | .labels _ => "list"

/-- A pandas `DataFrame`: ordered named columns of cells. -/
structure DataFrame where
  cols : List (String × List Cell)
deriving Repr, DecidableEq

/-- Python `df.columns`. -/
def colNames (df : DataFrame) : List String :=
  df.cols.map Prod.fst

/-- Reading `df[name]`: the values of the named column (first match), `[]`
when the column is absent. -/
def getCol (df : DataFrame) (name : String) : List Cell :=
  match df.cols.find? (fun p => p.fst == name) with
  | some p => p.snd
  | none => []

/-- Assignment `df[name] = vals`: pandas replaces an existing column in place and
appends a fresh one at the end. -/
def setCol (df : DataFrame) (name : String) (vals : List Cell) : DataFrame :=
  if df.cols.any (fun p => p.fst == name) then
    ⟨df.cols.map fun p => if p.fst == name then (name, vals) else p⟩
  else
    ⟨df.cols ++ [(name, vals)]⟩

/-- Python `len(df)`: the number of rows (length of the first column). -/
def dfLen (df : DataFrame) : Nat :=
  match df.cols with
  | [] => 0
  | c :: _ => c.snd.length

namespace ClaudePage

/-- Function `classify_statement` of `src/pages/1_claude_dictionary.py`, lines
33-53: empty guard `pd.isna(text) or not text` returns the empty dict;
otherwise one lower-cased pass collects, per category, the keywords
whose lower-cased form is contained in the statement. -/
def classify_statement (text : Cell) (dictionaries : List (String × List String)) :
    List (String × MatchResult) :=
  if cellIsNa text || !cellTruthy text then []
  else
    let textLower := lowerStr (cellPyStr text)
    dictionaries.map fun p =>
      let ms := p.snd.filter fun keyword => strIn (lowerStr keyword) textLower
      (p.fst, ⟨decide (0 < ms.length), ms.length, ms⟩)

/-- The read `x.get(tactic, default dict).get(field, default)` of one category result:
the defaults at lines 72-80 are `present = False`, `count = 0`,
`matches = []`. -/
def getResult (rs : List (String × MatchResult)) (tactic : String) : MatchResult :=
  match rs.find? (fun p => p.fst == tactic) with
  | some p => p.snd
  | none => ⟨false, 0, []⟩

/-- The `results` payload of a `classification` cell. -/
def cellResults : Cell → List (String × MatchResult)
  | .results rs => rs
  | _ => []

/-- Statement-column resolution of `process_data`, lines 58-65: first
column whose lower-cased name contains "statement" or "text", else the
second column (the first when only one exists; `none` models the
IndexError on an empty schema). -/
def resolveStatementCol (columns : List String) : Option String :=
  match columns.find? (fun col =>
      strIn "statement" (lowerStr col) || strIn "text" (lowerStr col)) with
  | some c => some c
  | none => if columns.length > 1 then columns[1]? else columns[0]?

example : resolveStatementCol ["ID", "Statement"] = some "Statement" := by decide
example : resolveStatementCol ["my_text", "Statement"] = some "my_text" := by decide
example : resolveStatementCol ["a", "b"] = some "b" := by decide
example : resolveStatementCol ["a"] = some "a" := by decide
example : resolveStatementCol [] = none := by decide

/-- The per-category derived-column loop of `process_data`, lines 71-80:
for each tactic, in dictionary order, append `{tactic}_present`,
`{tactic}_count` and `{tactic}_matches`, each read off the raw
`classification` column of the current frame. -/
def addTactics (dicts : List (String × List String)) (df : DataFrame) : DataFrame :=
  match dicts with
  | [] => df
  | p :: rest =>
    let df1 := setCol df (p.fst ++ "_present")
      ((getCol df "classification").map fun c =>
        Cell.boolC (getResult (cellResults c) p.fst).present)
    let df2 := setCol df1 (p.fst ++ "_count")
      ((getCol df1 "classification").map fun c =>
        Cell.natC (getResult (cellResults c) p.fst).count)
    let df3 := setCol df2 (p.fst ++ "_matches")
      ((getCol df2 "classification").map fun c =>
        Cell.str (String.intercalate ", " (getResult (cellResults c) p.fst).matches_))
    addTactics rest df3

/-- The column names `addTactics` generates, in dictionary order. -/
def tripleNames : List (String × List String) → List String
  | [] => []
  | p :: rest =>
    (p.fst ++ "_present") :: (p.fst ++ "_count") :: (p.fst ++ "_matches") :: tripleNames rest

/-- Function `process_data`, lines 55-82: resolve the statement column, store the
raw per-row results in a `classification` column, flatten them into the
three derived columns per tactic, and return the frame together with
the resolved column name. -/
def process_data (df : DataFrame) (dicts : List (String × List String)) :
    Option (DataFrame × String) :=
  match resolveStatementCol (colNames df) with
  | none => none
  | some col =>
    let classCol := (getCol df col).map fun c => Cell.results (classify_statement c dicts)
    let df1 := setCol df "classification" classCol
    some (addTactics dicts df1, col)

/-- The tactic-breakdown statistic of the results tab, lines 231-233:
`total_present = df[tactic_present].sum()` and
`percentage = total_present / len(df) * 100`.  The division is Python
float division of the summed flags by `len(df)`: on a zero-row frame it
is a division by zero (NaN / `ZeroDivisionError`), which the embedding
renders as `none`, never as the number `0`. -/
def tab3Percentage (df : DataFrame) (tactic : String) : Option ℚ :=
  let total : Nat := (getCol df (tactic ++ "_present")).countP fun c => c == Cell.boolC true
  if dfLen df = 0 then none
  else some ((total : ℚ) / (dfLen df : ℚ) * 100)

/-- A parsed JSON value, the result of `json.load` on the uploaded
dictionary file. -/
inductive Json where
  | null
  | bool (b : Bool)
  | num (n : Int)
  | str (s : String)
  | arr (xs : List Json)
  | obj (fields : List (String × Json))

/-- The shape the spec calls a well-formed dictionary payload: a JSON
object whose values are all arrays of strings (keys of a JSON object
are strings by construction). -/
def wellFormedPayload : Json → Bool
  | .obj fields => fields.all fun p =>
      match p.snd with
      | .arr xs => xs.all fun x =>
          match x with
          | .str _ => true
          | _ => false
      | _ => false
  | _ => false

/-- The import path of the claude page, lines 197-202: `json.load` the
uploaded file and assign the parsed value to
`st.session_state.dictionaries` unconditionally.  `parsed = none`
models `json.load` raising (file is not JSON), in which case the
assignment never runs and the store keeps its old value; any parsed
value, well-formed or not, replaces the store wholesale. -/
def importDictionaries (parsed : Option Json) (store : Json) : Json :=
  match parsed with
  | none => store
  | some payload => payload

end ClaudePage

namespace CodexPage

/-- Function `_detect_statement_column` of
`src/pages/codex_project_dictionary.py`, lines 50-55 (the leading
underscore of the source name is dropped): the first column whose
lower-cased name equals "statement", else `None` — no substring pass
and no positional fallback exist on this page. -/
def detect_statement_column (columns : List String) : Option String :=
  columns.find? fun col => lowerStr col == "statement"

example : detect_statement_column ["ID", "Statement"] = some "Statement" := by decide
example : detect_statement_column ["ID", "stmt_text"] = none := by decide

end CodexPage

namespace AppPage

/-- Function `classify_statement` of `src/streamlit_app.py`, lines 26-32: the
list of category labels for which some keyword (taken verbatim) is
contained in the lower-cased statement. -/
def classify_statement (text : String) (dictionaries : List (String × List String)) :
    List String :=
  let textLower := lowerStr text
  (dictionaries.filter fun p => p.snd.any fun kw => strIn kw textLower).map Prod.fst

/-- The errors surfaced by `main` of `src/streamlit_app.py`.
`MissingColumnError` is the spec name for the guard at lines 78-80
(`st.error` followed by `return` when no `Statement` column exists). -/
inductive AppError where
  | MissingColumnError
deriving Repr, DecidableEq

/-- The classification body of `main`, lines 83-91: a `labels` column
holding `classify_statement` of `str(x)` per row, then one boolean
column per category recording membership of the label in that row's
list. -/
def augment (df : DataFrame) (dicts : List (String × List String)) : DataFrame :=
  let labelsCol := (getCol df "Statement").map fun c =>
    Cell.labels (classify_statement (cellPyStr c) dicts)
  let df1 := setCol df "labels" labelsCol
  dicts.foldl (fun acc p =>
    setCol acc p.fst ((getCol acc "labels").map fun c =>
      match c with
      | Cell.labels ls => Cell.boolC (ls.contains p.fst)
      | _ => Cell.boolC false)) df1

/-- The dataset path of `main`, lines 73-91: refuse the frame (error
message, early return, no output) when no column is literally named
`Statement`; otherwise classify and augment. -/
def main (df : DataFrame) (dicts : List (String × List String)) :
    Except AppError DataFrame :=
  if (colNames df).contains "Statement" then
    .ok (augment df dicts)
  else
    .error .MissingColumnError

end AppPage

namespace SpecModel

/-- The matching algorithm in the words of the spec: lower-case the
statement once; per category, collect in iteration order the keywords
whose lower-cased form is contained in it; `count` is the number of
collected keywords and `present` holds exactly when that count is
positive. -/
def classifySpec (s : String) (dicts : List (String × List String)) :
    List (String × MatchResult) :=
  let low := lowerStr s
  dicts.map fun p =>
    let collected := p.snd.filter fun kw => strIn (lowerStr kw) low
    (p.fst, ⟨decide (0 < collected.length), collected.length, collected⟩)

/-- The claimed statement-field resolution chain, word for word: first
an exact case-insensitive match on the name "statement"; if absent, the
first column whose name contains "statement" or "text"; if still
absent, the second column (the first when only one exists). -/
def claimedResolveChain (columns : List String) : Option String :=
  match columns.find? (fun col => lowerStr col == "statement") with
  | some c => some c
  | none =>
    match columns.find? (fun col =>
        strIn "statement" (lowerStr col) || strIn "text" (lowerStr col)) with
    | some c => some c
    | none => if columns.length > 1 then columns[1]? else columns[0]?

/-- The amended resolution policy of the claude page, in the amended
words: the first column whose lower-cased name contains "statement" or
"text"; when no column qualifies, the second column, or the first when
only one exists. -/
def amendedResolvePolicy (columns : List String) : Option String :=
  match columns.filter (fun col =>
      strIn "statement" (lowerStr col) || strIn "text" (lowerStr col)) with
  | c :: _ => some c
  | [] =>
    match columns with
    | [] => none
    | [c] => some c
    | _ :: c :: _ => some c

end SpecModel

/-- A small concrete dictionary store in its exported JSON shape. -/
def sampleStore : ClaudePage.Json :=
  .obj [("urgency_marketing", .arr [.str "hurry", .str "limited time"])]

/-- A JSON payload of a malformed shape: the top level is an array, not
an object mapping categories to keyword lists. -/
def badPayload : ClaudePage.Json :=
  .arr [.num 3]

/-! ## Helper lemmas -/

theorem data_ne_nil_of_ne_empty {s : String} (h : s ≠ "") : s.data.isEmpty = false := by
  cases s with
  | mk data =>
    cases data with
    | nil => exact absurd (String.ext rfl) h
    | cons a t => rfl

theorem find?_eq_filter_head? {α : Type} (p : α → Bool) :
    ∀ l : List α, l.find? p = (l.filter p).head?
  | [] => rfl
  | a :: l => by
    by_cases h : p a = true
    · simp [List.find?_cons, List.filter_cons, h]
    · simp only [List.find?_cons, List.filter_cons, h]
      simp only [Bool.false_eq_true, if_false, cond_false]
      exact find?_eq_filter_head? p l

/-! ## C1: the matching algorithm and concrete scenario 1 -/

/-- C1: for every non-empty, non-null statement and every dictionary,
`classify_statement` lower-cases the statement and collects, per
category in dictionary order, exactly the keywords whose lower-cased
form is contained in it, with `count` the number of collected keyword
entries and `present` exactly when the count is positive; on the
dictionary with `urgency_marketing = [limited time, hurry]` and the
statement `Hurry! Limited time offer` the result is present, count 2,
matches `[limited time, hurry]` in dictionary order. -/
theorem classify_follows_spec_scenario1 :
    (∀ (s : String) (dicts : List (String × List String)), s ≠ "" →
      ClaudePage.classify_statement (Cell.str s) dicts = SpecModel.classifySpec s dicts) ∧
    ClaudePage.classify_statement (Cell.str "Hurry! Limited time offer")
        [("urgency_marketing", ["limited time", "hurry"])] =
      [("urgency_marketing", ⟨true, 2, ["limited time", "hurry"]⟩)] := by
  constructor
  · intro s dicts hs
    simp [ClaudePage.classify_statement, SpecModel.classifySpec, cellIsNa, cellTruthy,
      cellPyStr, data_ne_nil_of_ne_empty hs]
  · decide

theorem classify_follows_spec_scenario1_witness :
    ClaudePage.classify_statement (Cell.str "act fast") [("u", ["fast"])] =
      SpecModel.classifySpec "act fast" [("u", ["fast"])] :=
  classify_follows_spec_scenario1.1 "act fast" [("u", ["fast"])] (by decide)

/-! ## C2: the three fields of a match result are mutually consistent -/

/-- C2: in every per-category result produced by `classify_statement`,
`present` holds exactly when `count` is positive, exactly when the
`matches` list is non-empty. -/
theorem match_result_fields_consistent (text : Cell)
    (dicts : List (String × List String)) (t : String) (r : MatchResult)
    (h : (t, r) ∈ ClaudePage.classify_statement text dicts) :
    (r.present = true ↔ 0 < r.count) ∧ (0 < r.count ↔ r.matches_ ≠ []) := by
  unfold ClaudePage.classify_statement at h
  by_cases hg : (cellIsNa text || !cellTruthy text) = true
  · rw [if_pos hg] at h
    exact absurd h (List.not_mem_nil _)
  · rw [if_neg hg] at h
    obtain ⟨p, hp, heq⟩ := List.mem_map.mp h
    obtain ⟨ht, hr⟩ := Prod.mk.injEq .. ▸ heq
    subst hr
    refine ⟨?_, ?_⟩
    · simp
    · exact List.length_pos

theorem match_result_fields_consistent_witness :
    (Prod.mk "u" (⟨true, 1, ["hurry"]⟩ : MatchResult)) ∈
      ClaudePage.classify_statement (Cell.str "hurry now") [("u", ["hurry"])] ∧
    ((true = true ↔ 0 < 1) ∧ (0 < 1 ↔ (["hurry"] : List String) ≠ [])) :=
  ⟨by decide,
    match_result_fields_consistent (Cell.str "hurry now") [("u", ["hurry"])] "u"
      ⟨true, 1, ["hurry"]⟩ (by decide)⟩

/-! ## C3: missing, empty or null statements classify to all-false -/

/-- C3: for a null (NaN) or empty statement and any dictionary, the
per-category read-out of the classification is `present = false`,
`count = 0`, `matches = []` for every category; both functions are
total, so no error is ever raised. -/
theorem empty_statement_all_default (dicts : List (String × List String)) (t : String) :
    ClaudePage.getResult (ClaudePage.classify_statement Cell.na dicts) t =
      ⟨false, 0, []⟩ ∧
    ClaudePage.getResult (ClaudePage.classify_statement (Cell.str "") dicts) t =
      ⟨false, 0, []⟩ := by
  exact ⟨rfl, rfl⟩

/-! ## C4: substring matching; scenario 2 as claimed is false -/

/-- C4 counterexample: the char sequence `vip` is not contained in
`pavilion tour` (the letters v, i appear but are followed by l), so the
code reports no match there — the claimed result
`present = true, count = 1, matches = [vip]` is refuted. -/
theorem pavilion_scenario_refuted :
    ClaudePage.classify_statement (Cell.str "pavilion tour")
        [("exclusive_marketing", ["vip"])] =
      [("exclusive_marketing", ⟨false, 0, []⟩)] ∧
    strIn "vip" (lowerStr "pavilion tour") = false ∧
    (⟨false, 0, []⟩ : MatchResult) ≠ ⟨true, 1, ["vip"]⟩ := by decide

/-- C4 amended: matching is substring containment, not word-boundary
matching — every statement that contains a keyword of a category as a
case-insensitive substring, even inside an unrelated word, is reported
present for that category with the keyword collected; in particular
`vip` inside the unrelated word `viper` of the statement `viper tour`
yields present, count 1, matches `[vip]`. -/
theorem substring_matching_amended :
    (∀ (s : String) (dicts : List (String × List String)) (t : String)
        (kws : List String) (kw : String), s ≠ "" → (t, kws) ∈ dicts → kw ∈ kws →
        strIn (lowerStr kw) (lowerStr s) = true →
        ∃ r, (t, r) ∈ ClaudePage.classify_statement (Cell.str s) dicts ∧
          r.present = true ∧ kw ∈ r.matches_) ∧
    ClaudePage.classify_statement (Cell.str "viper tour")
        [("exclusive_marketing", ["vip"])] =
      [("exclusive_marketing", ⟨true, 1, ["vip"]⟩)] := by
  constructor
  · intro s dicts t kws kw hs hdict hkw hsub
    unfold ClaudePage.classify_statement
    rw [if_neg (by simp [cellIsNa, cellTruthy, data_ne_nil_of_ne_empty hs])]
    refine ⟨_, List.mem_map_of_mem _ hdict, ?_, ?_⟩
    · have hmem : kw ∈ kws.filter fun keyword =>
          strIn (lowerStr keyword) (lowerStr (cellPyStr (Cell.str s))) :=
        List.mem_filter.mpr ⟨hkw, hsub⟩
      exact decide_eq_true (List.length_pos.mpr (List.ne_nil_of_mem hmem))
    · exact List.mem_filter.mpr ⟨hkw, hsub⟩
  · decide

theorem substring_matching_amended_witness :
    ∃ r, (Prod.mk "exclusive_marketing" r) ∈
        ClaudePage.classify_statement (Cell.str "viper tour")
          [("exclusive_marketing", ["vip"])] ∧
      r.present = true ∧ "vip" ∈ r.matches_ :=
  substring_matching_amended.1 "viper tour" [("exclusive_marketing", ["vip"])]
    "exclusive_marketing" ["vip"] "vip" (by decide) (by decide) (by decide) (by decide)

/-! ## C10: matched keywords keep their original dictionary casing -/

/-- C10: every keyword collected into `matches` is one of the original
keyword entries of its category, returned verbatim (no lower-cased
copy), even though the containment test compares lower-cased forms; a
dictionary entry `VIP` matching the statement `vip tour` is reported as
`VIP`. -/
theorem matches_keep_dictionary_casing :
    (∀ (text : Cell) (dicts : List (String × List String)) (t : String)
        (r : MatchResult), (t, r) ∈ ClaudePage.classify_statement text dicts →
        ∀ kw ∈ r.matches_, ∃ kws, (t, kws) ∈ dicts ∧ kw ∈ kws ∧
          strIn (lowerStr kw) (lowerStr (cellPyStr text)) = true) ∧
    ClaudePage.classify_statement (Cell.str "vip tour")
        [("exclusive_marketing", ["VIP"])] =
      [("exclusive_marketing", ⟨true, 1, ["VIP"]⟩)] := by
  constructor
  · intro text dicts t r h kw hkw
    unfold ClaudePage.classify_statement at h
    by_cases hg : (cellIsNa text || !cellTruthy text) = true
    · rw [if_pos hg] at h
      exact absurd h (List.not_mem_nil _)
    · rw [if_neg hg] at h
      obtain ⟨p, hp, heq⟩ := List.mem_map.mp h
      obtain ⟨ht, hr⟩ := Prod.mk.injEq .. ▸ heq
      subst ht
      refine ⟨p.snd, hp, ?_⟩
      rw [← hr] at hkw
      exact ⟨(List.mem_filter.mp hkw).1, (List.mem_filter.mp hkw).2⟩
  · decide

theorem matches_keep_dictionary_casing_witness :
    ∃ kws, (Prod.mk "exclusive_marketing" kws) ∈
        ([("exclusive_marketing", ["VIP"])] : List (String × List String)) ∧
      "VIP" ∈ kws ∧ strIn (lowerStr "VIP") (lowerStr (cellPyStr (Cell.str "vip tour"))) = true :=
  matches_keep_dictionary_casing.1 (Cell.str "vip tour")
    [("exclusive_marketing", ["VIP"])] "exclusive_marketing"
    ⟨true, 1, ["VIP"]⟩ (by decide) "VIP" (by decide)

/-! ## C5: statement-field resolution -/

/-- C5 counterexample: no exact-match-first step exists.  On the schema
`[my_text, Statement]` the claimed chain resolves the exact
case-insensitive match `Statement`, but `process_data` takes the first
column containing "text", `my_text`; and on `[Notes, Comment]` the
claimed chain falls back to the second column while the codex page
resolves nothing at all. -/
theorem resolution_chain_refuted :
    ClaudePage.resolveStatementCol ["my_text", "Statement"] = some "my_text" ∧
    SpecModel.claimedResolveChain ["my_text", "Statement"] = some "Statement" ∧
    some "my_text" ≠ some "Statement" ∧
    CodexPage.detect_statement_column ["Notes", "Comment"] = none ∧
    SpecModel.claimedResolveChain ["Notes", "Comment"] = some "Comment" := by decide

/-- C5 amended: resolution in `process_data` is deterministic and
follows this chain: the first column whose lower-cased name contains
"statement" or "text"; if none qualifies, the second column (the first
when only one exists); the resolved name is returned to the caller as
the second component of the result.  The codex page instead accepts
only an exact case-insensitive match on "statement" and has no
fallback. -/
theorem resolution_policy_amended :
    (∀ columns : List String,
      ClaudePage.resolveStatementCol columns = SpecModel.amendedResolvePolicy columns) ∧
    (∀ (df : DataFrame) (dicts : List (String × List String)),
      (ClaudePage.process_data df dicts).map Prod.snd =
        ClaudePage.resolveStatementCol (colNames df)) ∧
    (∀ (columns : List String) (c : String),
      CodexPage.detect_statement_column columns = some c →
        lowerStr c = "statement" ∧ c ∈ columns) := by
  refine ⟨?_, ?_, ?_⟩
  · intro columns
    unfold ClaudePage.resolveStatementCol SpecModel.amendedResolvePolicy
    rw [find?_eq_filter_head?]
    cases hf : columns.filter (fun col =>
        strIn "statement" (lowerStr col) || strIn "text" (lowerStr col)) with
    | cons c rest => rfl
    | nil =>
      cases columns with
      | nil => rfl
      | cons a t =>
        cases t with
        | nil => rfl
        | cons b t2 => simp
  · intro df dicts
    unfold ClaudePage.process_data
    cases h : ClaudePage.resolveStatementCol (colNames df) <;> simp [h]
  · intro columns c h
    refine ⟨?_, List.mem_of_find?_eq_some h⟩
    have := List.find?_some h
    simpa using this

theorem resolution_policy_amended_witness :
    lowerStr "Statement" = "statement" ∧ "Statement" ∈ ["ID", "Statement"] :=
  resolution_policy_amended.2.2 ["ID", "Statement"] "Statement" (by decide)

/-! ## C6: the zero-row percentage -/

/-- C6 at the failing input: classifying a zero-row frame succeeds, but
the results-tab statistic divides the summed flags by `len(df) = 0`
(line 233 has no zero guard), so the percentage is a division failure
(`none`), not the number `0` the spec requires; for positive row counts
the statistic is the claimed `present_count / total_rows * 100`. -/
theorem zero_row_percentage_not_zero :
    (ClaudePage.process_data ⟨[("ID", []), ("Statement", [])]⟩
        [("urgency_marketing", ["hurry"])]).map
        (fun p => ClaudePage.tab3Percentage p.fst "urgency_marketing") =
      some none ∧
    some (none : Option ℚ) ≠ some (some 0) := by
  constructor
  · rfl
  · simp

/-! ## C7: dictionary import performs no validation -/

/-- C7 counterexample: a malformed payload (top-level JSON array) is
not rejected — the import path assigns the parsed value to the store
unconditionally, so the store is replaced, not left untouched, and no
`InvalidFormatError` path exists in the code. -/
theorem import_malformed_replaces_store :
    ClaudePage.wellFormedPayload badPayload = false ∧
    ClaudePage.importDictionaries (some badPayload) sampleStore = badPayload ∧
    badPayload ≠ sampleStore :=
  ⟨rfl, rfl, fun h => ClaudePage.Json.noConfusion h⟩

/-- C7 amended: the import path validates nothing: every successfully
parsed JSON payload, well-formed or not, replaces the existing store
wholesale; the store keeps its previous value only when `json.load`
itself fails (the file is not JSON), because the assignment is never
reached. -/
theorem import_is_unvalidated_replacement :
    (∀ (payload store : ClaudePage.Json),
      ClaudePage.wellFormedPayload payload = false →
        ClaudePage.importDictionaries (some payload) store = payload) ∧
    (∀ store : ClaudePage.Json, ClaudePage.importDictionaries none store = store) :=
  ⟨fun _ _ _ => rfl, fun _ => rfl⟩

theorem import_is_unvalidated_replacement_witness :
    ClaudePage.importDictionaries (some badPayload) sampleStore = badPayload :=
  import_is_unvalidated_replacement.1 badPayload sampleStore rfl

/-! ## C8: dataset classification is all-or-nothing -/

/-- C8: when the statement field cannot be resolved — on the app page
the only resolvable name is the literal column `Statement` — the
dataset call fails with the missing-column error and produces no
frame, partial or otherwise. -/
theorem missing_statement_column_all_or_nothing
    (df : DataFrame) (dicts : List (String × List String))
    (h : (colNames df).contains "Statement" = false) :
    AppPage.main df dicts = .error .MissingColumnError := by
  unfold AppPage.main
  rw [if_neg]
  intro hm
  rw [h] at hm
  exact Bool.false_ne_true hm

theorem missing_statement_column_all_or_nothing_witness :
    AppPage.main ⟨[("ID", [Cell.natC 1]), ("Comment", [Cell.str "hi"])]⟩
        [("u", ["hurry"])] =
      .error .MissingColumnError :=
  missing_statement_column_all_or_nothing
    ⟨[("ID", [Cell.natC 1]), ("Comment", [Cell.str "hi"])]⟩ [("u", ["hurry"])] (by decide)

/-! ## C9: output columns of process_data -/

theorem setCol_fresh {df : DataFrame} {n : String} (v : List Cell)
    (h : n ∉ colNames df) : (setCol df n v).cols = df.cols ++ [(n, v)] := by
  unfold setCol
  rw [if_neg]
  intro hc
  obtain ⟨p, hp, hbeq⟩ := List.any_eq_true.mp hc
  exact h (eq_of_beq hbeq ▸ List.mem_map_of_mem Prod.fst hp)

theorem colNames_setCol_fresh {df : DataFrame} {n : String} (v : List Cell)
    (h : n ∉ colNames df) : colNames (setCol df n v) = colNames df ++ [n] := by
  unfold colNames
  rw [setCol_fresh v h, List.map_append]
  rfl

theorem find?_append_of_some {α : Type} {p : α → Bool} {a : α} :
    ∀ {l₁ : List α} (l₂ : List α), l₁.find? p = some a → (l₁ ++ l₂).find? p = some a
  | [], _, h => by cases h
  | b :: l, l₂, h => by
    by_cases hb : p b = true
    · rw [List.find?_cons_of_pos _ hb] at h
      rw [List.cons_append, List.find?_cons_of_pos _ hb]
      exact h
    · rw [List.find?_cons_of_neg _ hb] at h
      rw [List.cons_append, List.find?_cons_of_neg _ hb]
      exact find?_append_of_some l₂ h

theorem find?_names_isSome {cols : List (String × List Cell)} {m : String}
    (hm : m ∈ cols.map Prod.fst) :
    ∃ p, cols.find? (fun p => p.fst == m) = some p := by
  induction cols with
  | nil => simp at hm
  | cons q rest ih =>
    by_cases hq : (q.fst == m) = true
    · exact ⟨q, by simp only [List.find?_cons, hq]⟩
    · rw [Bool.not_eq_true] at hq
      rw [List.map_cons] at hm
      cases hm with
      | head => exact absurd (beq_self_eq_true q.fst) (by rw [hq]; exact Bool.false_ne_true)
      | tail _ hm' =>
        obtain ⟨p, hp⟩ := ih hm'
        exact ⟨p, by simp only [List.find?_cons, hq]; exact hp⟩

theorem getCol_setCol_fresh {df : DataFrame} {n m : String} (v : List Cell)
    (h : n ∉ colNames df) (hm : m ∈ colNames df) :
    getCol (setCol df n v) m = getCol df m := by
  obtain ⟨p, hp⟩ := find?_names_isSome hm
  unfold getCol
  rw [setCol_fresh v h, find?_append_of_some _ hp, hp]

theorem setCol3_spec {df : DataFrame} {n1 n2 n3 : String}
    (v1 v2 v3 : List Cell)
    (h1 : n1 ∉ colNames df) (h2 : n2 ∉ colNames df) (h3 : n3 ∉ colNames df)
    (h12 : n1 ≠ n2) (h13 : n1 ≠ n3) (h23 : n2 ≠ n3) :
    colNames (setCol (setCol (setCol df n1 v1) n2 v2) n3 v3) =
      colNames df ++ [n1, n2, n3] ∧
    ∀ m, m ∈ colNames df →
      getCol (setCol (setCol (setCol df n1 v1) n2 v2) n3 v3) m = getCol df m := by
  have hc1 := colNames_setCol_fresh v1 h1
  have h2' : n2 ∉ colNames (setCol df n1 v1) := by
    rw [hc1]
    intro hm
    rcases List.mem_append.mp hm with hm' | hm'
    · exact h2 hm'
    · exact h12 (List.mem_singleton.mp hm').symm
  have hc2 := colNames_setCol_fresh v2 h2'
  have h3' : n3 ∉ colNames (setCol (setCol df n1 v1) n2 v2) := by
    rw [hc2, hc1]
    intro hm
    rcases List.mem_append.mp hm with hm' | hm'
    · rcases List.mem_append.mp hm' with hm'' | hm''
      · exact h3 hm''
      · exact h13 (List.mem_singleton.mp hm'').symm
    · exact h23 (List.mem_singleton.mp hm').symm
  have hc3 := colNames_setCol_fresh v3 h3'
  constructor
  · rw [hc3, hc2, hc1]
    simp
  · intro m hm
    have hm1 : m ∈ colNames (setCol df n1 v1) := by
      rw [hc1]; exact List.mem_append_left _ hm
    have hm2 : m ∈ colNames (setCol (setCol df n1 v1) n2 v2) := by
      rw [hc2]; exact List.mem_append_left _ hm1
    rw [getCol_setCol_fresh v3 h3' hm2, getCol_setCol_fresh v2 h2' hm1,
      getCol_setCol_fresh v1 h1 hm]

theorem addTactics_spec (dicts : List (String × List String)) :
    ∀ df : DataFrame,
      (colNames df ++ ClaudePage.tripleNames dicts).Nodup →
      colNames (ClaudePage.addTactics dicts df) =
        colNames df ++ ClaudePage.tripleNames dicts ∧
      ∀ m, m ∈ colNames df →
        getCol (ClaudePage.addTactics dicts df) m = getCol df m := by
  induction dicts with
  | nil =>
    intro df h
    refine ⟨by simp [ClaudePage.addTactics, ClaudePage.tripleNames], fun m _ => rfl⟩
  | cons p rest ih =>
    intro df h
    simp only [ClaudePage.tripleNames] at h
    have hsplit := List.nodup_append.mp h
    obtain ⟨hA, hB, hdisj⟩ := hsplit
    have hn1A : (p.fst ++ "_present") ∉ colNames df :=
      fun ha => hdisj ha (by simp)
    have hn2A : (p.fst ++ "_count") ∉ colNames df :=
      fun ha => hdisj ha (by simp)
    have hn3A : (p.fst ++ "_matches") ∉ colNames df :=
      fun ha => hdisj ha (by simp)
    obtain ⟨hn1B, hB2⟩ := List.nodup_cons.mp hB
    obtain ⟨hn2B, hB3⟩ := List.nodup_cons.mp hB2
    have hn12 : (p.fst ++ "_present") ≠ (p.fst ++ "_count") :=
      fun he => hn1B (by rw [he]; simp)
    have hn13 : (p.fst ++ "_present") ≠ (p.fst ++ "_matches") :=
      fun he => hn1B (by rw [he]; simp)
    have hn23 : (p.fst ++ "_count") ≠ (p.fst ++ "_matches") :=
      fun he => hn2B (by rw [he]; simp)
    simp only [ClaudePage.addTactics]
    have key : ∀ v1 v2 v3 : List Cell,
        colNames (ClaudePage.addTactics rest
            (setCol (setCol (setCol df (p.fst ++ "_present") v1)
              (p.fst ++ "_count") v2) (p.fst ++ "_matches") v3)) =
          colNames df ++ ClaudePage.tripleNames (p :: rest) ∧
        ∀ m, m ∈ colNames df →
          getCol (ClaudePage.addTactics rest
              (setCol (setCol (setCol df (p.fst ++ "_present") v1)
                (p.fst ++ "_count") v2) (p.fst ++ "_matches") v3)) m = getCol df m := by
      intro v1 v2 v3
      obtain ⟨hcols3, hpres3⟩ := setCol3_spec v1 v2 v3 hn1A hn2A hn3A hn12 hn13 hn23
      have hnodup3 : (colNames (setCol (setCol (setCol df (p.fst ++ "_present") v1)
          (p.fst ++ "_count") v2) (p.fst ++ "_matches") v3) ++
          ClaudePage.tripleNames rest).Nodup := by
        rw [hcols3, List.append_assoc]
        simpa using h
      obtain ⟨ihc, ihp⟩ := ih _ hnodup3
      constructor
      · rw [ihc, hcols3, List.append_assoc]
        simp [ClaudePage.tripleNames]
      · intro m hm
        rw [ihp m (by rw [hcols3]; exact List.mem_append_left _ hm), hpres3 m hm]
    exact key _ _ _

/-- C9 counterexample: the output frame of `process_data` carries a raw
`classification` column besides the three derived columns per category,
so "no other columns added" fails on a one-row frame with one
category. -/
theorem process_data_extra_column :
    (ClaudePage.process_data
        ⟨[("ID", [Cell.natC 1]), ("Statement", [Cell.str "hurry now"])]⟩
        [("urgency", ["hurry"])]).map (fun p => colNames p.fst) =
      some ["ID", "Statement", "classification", "urgency_present", "urgency_count",
        "urgency_matches"] ∧
    "classification" ∉
      ["ID", "Statement", "urgency_present", "urgency_count", "urgency_matches"] := by
  decide

/-- C9 amended: whenever the statement column resolves and none of the
added names (`classification` and the three derived names per
category) collides with an existing column or another added name, the
output frame preserves every input column with its values unchanged
and appends exactly the `classification` column followed by the three
derived columns per category, in category-mapping order, with nothing
else added; the resolved column name is returned alongside. -/
theorem process_data_output_columns
    (df : DataFrame) (dicts : List (String × List String)) (col : String)
    (hres : ClaudePage.resolveStatementCol (colNames df) = some col)
    (hfresh : (colNames df ++ "classification" :: ClaudePage.tripleNames dicts).Nodup) :
    ∃ out : DataFrame,
      ClaudePage.process_data df dicts = some (out, col) ∧
      colNames out = colNames df ++ "classification" :: ClaudePage.tripleNames dicts ∧
      ∀ m, m ∈ colNames df → getCol out m = getCol df m := by
  have hcA : "classification" ∉ colNames df := by
    have hd := (List.nodup_append.mp hfresh).2.2
    exact fun ha => hd ha (List.mem_cons_self _ _)
  have hc1 := colNames_setCol_fresh
    ((getCol df col).map fun c => Cell.results (ClaudePage.classify_statement c dicts)) hcA
  have hnodup1 : (colNames (setCol df "classification"
      ((getCol df col).map fun c => Cell.results (ClaudePage.classify_statement c dicts))) ++
      ClaudePage.tripleNames dicts).Nodup := by
    rw [hc1, List.append_assoc]
    simpa using hfresh
  obtain ⟨hcols, hpres⟩ := addTactics_spec dicts _ hnodup1
  refine ⟨ClaudePage.addTactics dicts (setCol df "classification"
      ((getCol df col).map fun c => Cell.results (ClaudePage.classify_statement c dicts))),
    ?_, ?_, ?_⟩
  · unfold ClaudePage.process_data
    rw [hres]
  · rw [hcols, hc1, List.append_assoc]
    simp
  · intro m hm
    rw [hpres m (by rw [hc1]; exact List.mem_append_left _ hm),
      getCol_setCol_fresh _ hcA hm]

theorem process_data_output_columns_witness :
    ∃ out : DataFrame,
      ClaudePage.process_data
          ⟨[("ID", [Cell.natC 1]), ("Statement", [Cell.str "hurry now"])]⟩
          [("urgency", ["hurry"])] = some (out, "Statement") ∧
      colNames out =
        colNames (⟨[("ID", [Cell.natC 1]), ("Statement", [Cell.str "hurry now"])]⟩ : DataFrame)
          ++ "classification" :: ClaudePage.tripleNames [("urgency", ["hurry"])] ∧
      ∀ m, m ∈ colNames
          (⟨[("ID", [Cell.natC 1]), ("Statement", [Cell.str "hurry now"])]⟩ : DataFrame) →
        getCol out m =
          getCol ⟨[("ID", [Cell.natC 1]), ("Statement", [Cell.str "hurry now"])]⟩ m :=
  process_data_output_columns
    ⟨[("ID", [Cell.natC 1]), ("Statement", [Cell.str "hurry now"])]⟩
    [("urgency", ["hurry"])] "Statement" (by decide) (by decide)
